import Mathlib

/-!
Verification of the service-worker request-routing and response-transformation
engine of this repository, as a shallow embedding in Lean 4.

Two variants are embedded:
* `SW`     — the security-focused worker (`src/service-worker.js`)
* `Planos` — the PWA cache-first worker (`src/unnamed/part_000`)

Network fetches and JSON parsing are modelled as explicit inputs (the outcome
of `fetch(request)` is an `Except Unit (Option Response)` value: `.error` is a
rejected promise, `.ok none` a falsy response, `.ok (some r)` a response; the
outcome of `resp.json()` is given by a `parse : List Nat → Option Json`
function applied to the response body bytes).  The cache is an association
list from requests to responses.  Header maps are association lists with
case-insensitive (ASCII) name lookup, matching the JS `Headers` API.
-/

/-- ASCII lower-casing of one character (JS header names and the `i` regex
flag are compared case-insensitively; ASCII suffices for this code base). -/
def lcChar (c : Char) : Char :=
  if 65 ≤ c.toNat ∧ c.toNat ≤ 90 then Char.ofNat (c.toNat + 32) else c

/-- ASCII lower-casing of a string. -/
def lowerStr (s : String) : String := String.mk (s.data.map lcChar)

/-- Does `s` start with `pat` (exact characters)? -/
def listStarts (pat s : List Char) : Bool :=
  match pat, s with
  | [], _ => true
  | _ :: _, [] => false
  | p :: ps, c :: cs => p == c && listStarts ps cs

/-- Does `s` contain `pat` as a contiguous sublist? (JS `String.includes`). -/
def listHasSub (pat : List Char) : List Char → Bool
  | [] => pat.isEmpty
  | c :: t => listStarts pat (c :: t) || listHasSub pat t

/-- JS `s.includes(pat)`. -/
def strIncludes (s pat : String) : Bool := listHasSub pat.data s.data

/-- JS `s.startsWith(pat)`. -/
def strStarts (s pat : String) : Bool := listStarts pat.data s.data

/-- Does `s` start with `pat` case-insensitively? `pat` is given lower-case. -/
def ciStarts (pat : List Char) (s : List Char) : Bool :=
  match pat, s with
  | [], _ => true
  | _ :: _, [] => false
  | p :: ps, c :: cs => p == lcChar c && ciStarts ps cs

/-- Body bytes of a textual body: code points of its characters (a faithful
stand-in for the byte sequence; `addSecurityHeadersToResponse` copies the
buffer verbatim, so only equality of byte sequences matters). -/
def strToBytes (s : String) : List Nat := s.data.map Char.toNat

/-! ## Header maps (JS `Headers`: case-insensitive names) -/

/-- A header map: association list of (name, value). -/
abbrev HeaderMap := List (String × String)

/-- `headers.get(name)`: first entry whose name matches case-insensitively. -/
def hget (hs : HeaderMap) (name : String) : Option String :=
  (hs.find? (fun kv => lowerStr kv.1 == lowerStr name)).map (·.2)

/-- `headers.set(name, value)`: drop entries with that (case-insensitive)
name and record the new value. -/
def hset (hs : HeaderMap) (name value : String) : HeaderMap :=
  hs.filter (fun kv => lowerStr kv.1 != lowerStr name) ++ [(name, value)]

/-- `headers.delete(name)`. -/
def hdelete (hs : HeaderMap) (name : String) : HeaderMap :=
  hs.filter (fun kv => lowerStr kv.1 != lowerStr name)


/-! ## Requests, responses, caches -/

/-- The result of `new URL(str)`: either the constructor throws (`malformed`)
or yields an origin (scheme+host+port) and a pathname.  URL strings are
abstracted to their parse outcome. -/
inductive URLVal where
  | malformed : URLVal
  | parsed (origin : String) (pathname : String) : URLVal
deriving DecidableEq

/-- A request, with the fields the workers inspect. -/
structure Request where
  method : String
  url : URLVal
  mode : String
  headers : HeaderMap
deriving DecidableEq

/-- A response: status, status text, headers, body bytes. -/
structure Response where
  status : Nat
  statusText : String
  headers : HeaderMap
  body : List Nat
deriving DecidableEq

/-- JS `Response.ok`: status in the range 200–299. -/
def respOk (r : Response) : Bool := decide (200 ≤ r.status) && decide (r.status ≤ 299)

/-- A cache bucket: association list from requests to stored responses. -/
abbrev Cache := List (Request × Response)

/-- `cache.match(request)`. -/
def cacheMatch (cache : Cache) (req : Request) : Option Response :=
  (cache.find? (fun e => e.1 == req)).map (·.2)

/-- `cache.put(request, response)`: overwrite any entry for the request. -/
def cachePut (cache : Cache) (req : Request) (resp : Response) : Cache :=
  cache.filter (fun e => e.1 != req) ++ [(req, resp)]


namespace SW

/-- `src/service-worker.js` line 3. -/
def CACHE_NAME : String := "arminos-static-v1"

/-- `src/service-worker.js` lines 35–42: the Security Header Set. -/
def SECURITY_HEADERS : List (String × String) :=
  [("Content-Security-Policy",
    "default-src 'self'; script-src 'self'; object-src 'none'; base-uri 'self'; frame-ancestors 'none';"),
   ("X-Content-Type-Options", "nosniff"),
   ("X-Frame-Options", "DENY"),
   ("Referrer-Policy", "no-referrer"),
   ("Strict-Transport-Security", "max-age=63072000; includeSubDomains; preload")]

/-- `Object.entries(SECURITY_HEADERS).forEach(([k, v]) => headers.set(k, v))`. -/
def setSecurityHeaders (hs : HeaderMap) : HeaderMap :=
  SECURITY_HEADERS.foldl (fun h kv => hset h kv.1 kv.2) hs

/-- `src/service-worker.js` lines 27–33: `isSameOrigin` — compare the parsed
origin against the worker origin; a URL-constructor throw classifies as not
same-origin. -/
def isSameOrigin (allowedOrigin : String) (req : Request) : Bool :=
  match req.url with
  | .malformed => false
  | .parsed origin _ => origin == allowedOrigin

/-- `src/service-worker.js` lines 73–85: `addSecurityHeadersToResponse` on a
non-null response — copy the headers, force-set every security header, delete
`Server`, and rebuild the response from the buffered body with the same
status and status text. -/
def addSecurityHeadersToResponse (response : Response) : Response :=
  { status := response.status
    statusText := response.statusText
    headers := hdelete (setSecurityHeaders response.headers) "Server"
    body := response.body }

end SW

/-! ## JSON values and the string sanitizer -/

/-- A parsed JSON value (`JSON.parse` result; numbers are kept abstract as
integers — the sanitizer passes every non-string leaf through unchanged). -/
inductive Json where
  | null : Json
  | bool (b : Bool) : Json
  | num (n : Int) : Json
  | str (s : String) : Json
  | arr (items : List Json) : Json
  | obj (fields : List (String × Json)) : Json

def quoteChar : Char := Char.ofNat 34

def squoteChar : Char := Char.ofNat 39

def backslashChar : Char := Char.ofNat 92

def lbraceChar : Char := Char.ofNat 123

def rbraceChar : Char := Char.ofNat 125

namespace SW

/-! `sanitizeString` (`src/service-worker.js` lines 147–154) applies three
global, case-insensitive regex removals in order.  Each is embedded with the
JS backtracking semantics of its lazy/greedy quantifiers; the recursion fuel
is the string length (every step consumes at least one character). -/

def scriptOpenPat : List Char := "<script".data

def scriptClosePat : List Char := "</script>".data

/-- Lazy `[\s\S]*?<\/script>`: drop through the earliest `</script>`. -/
def skipToClose : List Char → Option (List Char)
  | [] => none
  | c :: t =>
    if ciStarts scriptClosePat (c :: t) then some ((c :: t).drop scriptClosePat.length)
    else skipToClose t

/-- Lazy `[\s\S]*?>` followed by `[\s\S]*?<\/script>`: take the earliest `>`
from which a closing tag can still be found (backtracking to later `>`
otherwise). -/
def afterGt : List Char → Option (List Char)
  | [] => none
  | c :: t =>
    if c == '>' then
      match skipToClose t with
      | some r => some r
      | none => afterGt t
    else afterGt t

/-- One attempt of `/<script[\s\S]*?>[\s\S]*?<\/script>/i` anchored at the
head of `s`; `some rest` is the text after the match. -/
def matchScriptAt (s : List Char) : Option (List Char) :=
  if ciStarts scriptOpenPat s then afterGt (s.drop scriptOpenPat.length) else none

/-- Global removal of `<script ...> ... </script>` blocks. -/
def stripScriptTags : Nat → List Char → List Char
  | 0, s => s
  | _ + 1, [] => []
  | fuel + 1, c :: t =>
    match matchScriptAt (c :: t) with
    | some rest => stripScriptTags fuel rest
    | none => c :: stripScriptTags fuel t

/-- JS `\s` (ASCII part). -/
def isSpaceChar (c : Char) : Bool :=
  c == ' ' || c == Char.ofNat 9 || c == Char.ofNat 10 ||
  c == Char.ofNat 11 || c == Char.ofNat 12 || c == Char.ofNat 13

/-- JS `\w`: `[A-Za-z0-9_]`. -/
def isWordChar (c : Char) : Bool :=
  (decide (97 ≤ c.toNat) && decide (c.toNat ≤ 122)) ||
  (decide (65 ≤ c.toNat) && decide (c.toNat ≤ 90)) ||
  (decide (48 ≤ c.toNat) && decide (c.toNat ≤ 57)) || c == '_'

/-- `[^q]*q`: drop through the next occurrence of the quote `q`. -/
def dropThroughChar (q : Char) : List Char → Option (List Char)
  | [] => none
  | c :: t => if c == q then some t else dropThroughChar q t

/-- Greedy `[^\s>]+` (the unquoted-value alternative). -/
def matchUnquoted (r : List Char) : Option (List Char) :=
  let run := r.takeWhile (fun c => !(isSpaceChar c) && c != '>')
  if run.isEmpty then none else some (r.drop run.length)

/-- One attempt of `/on\w+\s*=\s*(?:"[^"]*"|'[^']*'|[^\s>]+)/i` anchored at
the head of `s` (greedy `\w+`/`\s*` runs, then the three value alternatives
in order, falling back to the unquoted alternative when a quoted one has no
closing quote). -/
def matchHandlerAt (s : List Char) : Option (List Char) :=
  if ciStarts "on".data s then
    let r0 := s.drop 2
    let w := r0.takeWhile isWordChar
    if w.isEmpty then none
    else
      let r1 := (r0.drop w.length).dropWhile isSpaceChar
      match r1 with
      | c :: r2 =>
        if c == '=' then
          let r3 := r2.dropWhile isSpaceChar
          match r3 with
          | c2 :: r4 =>
            if c2 == quoteChar then
              match dropThroughChar quoteChar r4 with
              | some r5 => some r5
              | none => matchUnquoted r3
            else if c2 == squoteChar then
              match dropThroughChar squoteChar r4 with
              | some r5 => some r5
              | none => matchUnquoted r3
            else matchUnquoted r3
          | [] => none
        else none
      | [] => none
  else none

/-- Global removal of inline event-handler attribute patterns. -/
def stripEventHandlers : Nat → List Char → List Char
  | 0, s => s
  | _ + 1, [] => []
  | fuel + 1, c :: t =>
    match matchHandlerAt (c :: t) with
    | some rest => stripEventHandlers fuel rest
    | none => c :: stripEventHandlers fuel t

def jsUriPat : List Char := "javascript:".data

/-- Global removal of `javascript:` (case-insensitive). -/
def stripJsUris : Nat → List Char → List Char
  | 0, s => s
  | _ + 1, [] => []
  | fuel + 1, c :: t =>
    if ciStarts jsUriPat (c :: t) then stripJsUris fuel ((c :: t).drop jsUriPat.length)
    else c :: stripJsUris fuel t

/-- `src/service-worker.js` lines 147–154: the three regex removals in
source order. -/
def sanitizeString (s : String) : String :=
  let a := stripScriptTags s.data.length s.data
  let b := stripEventHandlers a.length a
  let c := stripJsUris b.length b
  String.mk c

mutual

/-- `src/service-worker.js` lines 133–145: recursively sanitize every string
leaf; arrays map elementwise, objects map over their values, other scalars
pass through. -/
def sanitizeJsonStrings : Json → Json
  | .null => .null
  | .bool b => .bool b
  | .num n => .num n
  | .str s => .str (sanitizeString s)
  | .arr items => .arr (sanitizeJsonList items)
  | .obj fields => .obj (sanitizeJsonFields fields)

/-- Elementwise sanitization of an array (`obj.map(sanitizeJsonStrings)`). -/
def sanitizeJsonList : List Json → List Json
  | [] => []
  | j :: t => sanitizeJsonStrings j :: sanitizeJsonList t

/-- Sanitization of each field value of an object. -/
def sanitizeJsonFields : List (String × Json) → List (String × Json)
  | [] => []
  | (k, v) :: t => (k, sanitizeJsonStrings v) :: sanitizeJsonFields t

end

end SW

/-! ## `JSON.stringify` -/

def hexDigitChar (n : Nat) : Char :=
  if n < 10 then Char.ofNat (48 + n) else Char.ofNat (87 + n)

/-- JSON string escaping (`"`, `\`, and control characters). -/
def escapeJsonChar (c : Char) : List Char :=
  if c == quoteChar then [backslashChar, quoteChar]
  else if c == backslashChar then [backslashChar, backslashChar]
  else if c == Char.ofNat 8 then [backslashChar, 'b']
  else if c == Char.ofNat 9 then [backslashChar, 't']
  else if c == Char.ofNat 10 then [backslashChar, 'n']
  else if c == Char.ofNat 12 then [backslashChar, 'f']
  else if c == Char.ofNat 13 then [backslashChar, 'r']
  else if decide (c.toNat < 32) then
    [backslashChar, 'u', '0', '0', hexDigitChar (c.toNat / 16), hexDigitChar (c.toNat % 16)]
  else [c]

def quoteJsonString (s : String) : List Char :=
  quoteChar :: (s.data.foldr (fun c acc => escapeJsonChar c ++ acc) [quoteChar])

mutual

/-- `JSON.stringify` on a JSON value, as a character list. -/
def stringifyJson : Json → List Char
  | .null => "null".data
  | .bool true => "true".data
  | .bool false => "false".data
  | .num n => (toString n).data
  | .str s => quoteJsonString s
  | .arr items => '[' :: (stringifyList items ++ [']'])
  | .obj fields => lbraceChar :: (stringifyFields fields ++ [rbraceChar])

/-- Comma-separated array elements. -/
def stringifyList : List Json → List Char
  | [] => []
  | [j] => stringifyJson j
  | j :: t => stringifyJson j ++ (',' :: stringifyList t)

/-- Comma-separated `"key":value` fields. -/
def stringifyFields : List (String × Json) → List Char
  | [] => []
  | [(k, v)] => quoteJsonString k ++ (':' :: stringifyJson v)
  | (k, v) :: t => quoteJsonString k ++ (':' :: stringifyJson v) ++ (',' :: stringifyFields t)

end

/-- `JSON.stringify`. -/
def stringify (j : Json) : String := String.mk (stringifyJson j)

namespace SW

/-! ## The fetch handlers (`src/service-worker.js`) -/

/-- `src/service-worker.js` lines 126–129: the synthesized error response the
calendar handler returns from its `catch` (status 502, default status text,
`Content-Type: application/json` plus the Security Header Set, and the body
`JSON.stringify({error: 'Network error'})`). -/
def networkErrorResponse : Response :=
  { status := 502
    statusText := ""
    headers := ("Content-Type", "application/json") :: SECURITY_HEADERS
    body := strToBytes (stringify (Json.obj [("error", Json.str "Network error")])) }

/-- `src/service-worker.js` lines 106–131: `handleApiCalendar`.
`parse` gives the outcome of `resp.json()` on the response body bytes
(`none` = the parse throws); a parse throw, like a fetch rejection, lands in
the function's single `catch`, which answers with `networkErrorResponse`. -/
def handleApiCalendar (parse : List Nat → Option Json)
    (fetchResult : Except Unit (Option Response)) : Option Response :=
  match fetchResult with
  | .error _ => some networkErrorResponse
  | .ok none => none
  | .ok (some resp) =>
    if strIncludes ((hget resp.headers "Content-Type").getD "") "application/json" then
      match parse resp.body with
      | some json =>
        some { status := resp.status
               statusText := resp.statusText
               headers := setSecurityHeaders resp.headers
               body := strToBytes (stringify (sanitizeJsonStrings json)) }
      | none => some networkErrorResponse
    else some (addSecurityHeadersToResponse resp)

/-- `src/service-worker.js` lines 156–174: `networkFirstWithSecurity`.
Returns the cache after the handler ran and the value the handler produces
(`.error` = the caught fetch error is re-thrown to the browser). -/
def networkFirstWithSecurity (cache : Cache)
    (fetchResult : Except Unit (Option Response)) (request : Request) :
    Cache × Except Unit (Option Response) :=
  match fetchResult with
  | .ok (some response) =>
    if respOk response then
      (cachePut cache request response, .ok (some (addSecurityHeadersToResponse response)))
    else
      match cacheMatch cache request with
      | some cached => (cache, .ok (some (addSecurityHeadersToResponse cached)))
      | none => (cache, .ok (some response))
  | .ok none =>
    match cacheMatch cache request with
    | some cached => (cache, .ok (some (addSecurityHeadersToResponse cached)))
    | none => (cache, .ok none)
  | .error e =>
    match cacheMatch cache request with
    | some cached => (cache, .ok (some (addSecurityHeadersToResponse cached)))
    | none => (cache, .error e)

/-- `cache.match(urlString)`: match a cache entry by request URL. -/
def cacheMatchUrl (cache : Cache) (u : URLVal) : Option Response :=
  (cache.find? (fun e => e.1.url == u)).map (·.2)

/-- `src/service-worker.js` lines 98–102: the synthesized offline page. -/
def offlineResponse : Response :=
  { status := 503
    statusText := "Service Unavailable"
    headers := ("Content-Type", "text/html") :: SECURITY_HEADERS
    body := strToBytes "<h1>Offline</h1>" }

/-- `src/service-worker.js` lines 94–102: the navigation fallback — the
cached `/offline.html` (hardened) if present, else the synthesized page. -/
def navigationFallback (allowedOrigin : String) (cache : Cache) : Response :=
  match cacheMatchUrl cache (.parsed allowedOrigin "/offline.html") with
  | some cached => addSecurityHeadersToResponse cached
  | none => offlineResponse

/-- `src/service-worker.js` lines 87–104: `handleNavigationRequest` — a falsy
or ≥500 network response throws into the fallback path. -/
def handleNavigationRequest (allowedOrigin : String) (cache : Cache)
    (fetchResult : Except Unit (Option Response)) : Response :=
  match fetchResult with
  | .ok (some resp) =>
    if decide (500 ≤ resp.status) then navigationFallback allowedOrigin cache
    else addSecurityHeadersToResponse resp
  | .ok none => navigationFallback allowedOrigin cache
  | .error _ => navigationFallback allowedOrigin cache

/-! ## The fetch event listener (`src/service-worker.js` lines 44–71) -/

/-- Which branch of the fetch listener handles a request. -/
inductive RouteDecision where
  | passThrough : RouteDecision
  | navigation : RouteDecision
  | apiCalendar : RouteDecision
  | defaultHandler : RouteDecision
deriving DecidableEq

/-- Line 53: navigation mode, or an `Accept` header containing `text/html`. -/
def isNavigationReq (req : Request) : Bool :=
  req.mode == "navigate" || strIncludes ((hget req.headers "accept").getD "") "text/html"

/-- Lines 60–61: the parsed pathname starts with `/api/calendar` (a URL-parse
throw is caught and falls through to default handling). -/
def pathStartsCalendar (req : Request) : Bool :=
  match req.url with
  | .parsed _ p => strStarts p "/api/calendar"
  | .malformed => false

/-- The listener's routing: the guards of lines 48, 53, 61 in source order,
first match winning. -/
def route (allowedOrigin : String) (req : Request) : RouteDecision :=
  if req.method != "GET" || !(isSameOrigin allowedOrigin req) then .passThrough
  else if isNavigationReq req then .navigation
  else
    match req.url with
    | .parsed _ p => if strStarts p "/api/calendar" then .apiCalendar else .defaultHandler
    | .malformed => .defaultHandler

/-- The environment a fetch event runs against: the outcome of the (single)
`fetch(request)` the chosen handler performs, and of `resp.json()`. -/
structure FetchWorld where
  fetchResult : Except Unit (Option Response)
  parse : List Nat → Option Json

/-- The full fetch listener: route, run the chosen handler, return the cache
afterwards and the `respondWith` value (`none` = no `respondWith`: the
request passes through to the network untouched). -/
def fetchEventDispatch (allowedOrigin : String) (cache : Cache) (w : FetchWorld)
    (req : Request) : Cache × Option (Except Unit (Option Response)) :=
  match route allowedOrigin req with
  | .passThrough => (cache, none)
  | .navigation =>
    (cache, some (.ok (some (handleNavigationRequest allowedOrigin cache w.fetchResult))))
  | .apiCalendar => (cache, some (.ok (handleApiCalendar w.parse w.fetchResult)))
  | .defaultHandler =>
    let r := networkFirstWithSecurity cache w.fetchResult req
    (r.1, some r.2)

/-- The `/api/calendar` branch of the fetch event, with the cache state made
explicit: `handleApiCalendar` performs no cache operation, so the cache is
unchanged. -/
def apiCalendarEvent (cache : Cache) (parse : List Nat → Option Json)
    (fetchResult : Except Unit (Option Response)) : Cache × Option Response :=
  (cache, handleApiCalendar parse fetchResult)

end SW

/-! ## Cache-generation store and activation -/

/-- `caches.delete(k)`: remove the named cache bucket. -/
def cachesDelete (store : List String) (k : String) : List String :=
  store.filter (fun x => x != k)

namespace SW

/-- `src/service-worker.js` lines 18–25: on activate, claim clients (no cache
effect), then delete every cache whose key differs from `CACHE_NAME`
(`keys.filter(k => k !== CACHE_NAME).map(k => caches.delete(k))`). -/
def activateEvent (store : List String) : List String :=
  (store.filter (fun k => k != CACHE_NAME)).foldl cachesDelete store

/-! ## The message event listener (`src/service-worker.js` lines 177–200) -/

/-- `event.data`: either not an object (including null/undefined/primitives)
or an object, of which the listener reads `type` and `projectId` (absent
fields are `none`). -/
inductive MsgData where
  | notObject : MsgData
  | object (type : Option String) (projectId : Option String) : MsgData

/-- `event.source`: `url` is `none` when `src.url` is falsy, and otherwise
the outcome of `new URL(src.url)` (a throw lands in the listener's `catch`,
which does nothing). -/
structure MsgSource where
  url : Option URLVal

/-- A message event. -/
structure MessageEvent where
  source : Option MsgSource
  data : MsgData

/-- The observable effect of the message listener: the payload broadcast to
all window clients (the relayed `projectId`), and the version string of a
direct reply to the sender.  The listener's whole body is wrapped in
`try/catch`, so it never surfaces an error. -/
structure MsgEffects where
  broadcast : Option (Option String)
  reply : Option String
deriving DecidableEq

/-- `src/service-worker.js` lines 177–200: origin check, object check, then
the `CONFIRM_DELETE` broadcast and/or the `SW_HEALTH_CHECK` reply. -/
def handleMessage (allowedOrigin : String) (ev : MessageEvent) : MsgEffects :=
  match ev.source with
  | none => { broadcast := none, reply := none }
  | some src =>
    match src.url with
    | none => { broadcast := none, reply := none }
    | some .malformed => { broadcast := none, reply := none }
    | some (.parsed origin _) =>
      if origin != allowedOrigin then { broadcast := none, reply := none }
      else
        match ev.data with
        | .notObject => { broadcast := none, reply := none }
        | .object ty pid =>
          { broadcast := if ty == some "CONFIRM_DELETE" then some pid else none
            reply := if ty == some "SW_HEALTH_CHECK" then some CACHE_NAME else none }

end SW

namespace Planos

/-- `src/unnamed/part_000` line 4. -/
def CACHE_NAME : String := "planos-pwa-v1"

/-- `src/unnamed/part_000` lines 24–30: on activate, delete every cache whose
key differs from `CACHE_NAME` (`keys.map(k => k === CACHE_NAME ? null :
caches.delete(k))`), then claim clients (no cache effect). -/
def activateEvent (store : List String) : List String :=
  store.foldl (fun acc k => if k == CACHE_NAME then acc else cachesDelete acc k) store

/-- `src/unnamed/part_000` lines 43–59: the non-navigation branch of the
fetch listener.  Cached entry wins; otherwise fetch, cache same-origin GET
responses (a URL-parse throw skips caching), and return the response; a fetch
rejection is answered by `.catch(() => cached)` — `cached` is necessarily
absent on this path, so the promise resolves with `undefined` (`.ok none`),
it does not reject. -/
def handleNonNavigation (selfOrigin : String) (cache : Cache) (req : Request)
    (fetchResult : Except Unit Response) : Cache × Except Unit (Option Response) :=
  match cacheMatch cache req with
  | some cached => (cache, .ok (some cached))
  | none =>
    match fetchResult with
    | .ok res =>
      match req.url with
      | .parsed origin _ =>
        if req.method == "GET" && origin == selfOrigin then
          (cachePut cache req res, .ok (some res))
        else (cache, .ok (some res))
      | .malformed => (cache, .ok (some res))
    | .error _ => (cache, .ok none)

end Planos

/-! ## Concrete fixtures (used for witnesses and counterexamples) -/

def demoOrigin : String := "https://app.example"

def demoReq (p : String) : Request :=
  { method := "GET", url := .parsed demoOrigin p, mode := "no-cors", headers := [] }

def calendarReq : Request :=
  { method := "GET", url := .parsed demoOrigin "/api/calendar/events", mode := "cors",
    headers := [] }

def jsonResp : Response :=
  { status := 200, statusText := "OK",
    headers := [("Content-Type", "application/json")], body := [1, 2, 3] }

def notFoundResp : Response :=
  { status := 404, statusText := "Not Found", headers := [], body := [] }

def cachedHello : Response :=
  { status := 200, statusText := "OK", headers := [("X-Old", "1")],
    body := strToBytes "hello" }

/-- A `resp.json()` outcome that throws (parse failure). -/
def parseNone : List Nat → Option Json := fun _ => none

/-- A `resp.json()` outcome that succeeds with a small object. -/
def parseSome : List Nat → Option Json := fun _ => some (Json.obj [("title", Json.str "x")])

/-! ## Supporting lemmas -/

theorem find?_filter_of_imp {α : Type} (p q : α → Bool) (l : List α)
    (h : ∀ x, q x = true → p x = true) :
    List.find? q (List.filter p l) = List.find? q l := by
  induction l with
  | nil => rfl
  | cons a t ih =>
    rw [List.filter_cons]
    by_cases hq : q a = true
    · rw [if_pos (h a hq), List.find?_cons_of_pos _ hq, List.find?_cons_of_pos _ hq]
    · by_cases hp : p a = true
      · rw [if_pos hp, List.find?_cons_of_neg _ hq, List.find?_cons_of_neg _ hq]
        exact ih
      · rw [if_neg hp, List.find?_cons_of_neg _ hq]
        exact ih

theorem find?_name_filter_ne (hs : HeaderMap) (n n' : String)
    (h : lowerStr n' = lowerStr n) :
    List.find? (fun kv => lowerStr kv.1 == lowerStr n')
      (List.filter (fun kv => lowerStr kv.1 != lowerStr n) hs) = none := by
  rw [List.find?_eq_none]
  intro x hx hq
  have hp := (List.mem_filter.mp hx).2
  rw [bne_iff_ne] at hp
  exact hp (by rw [← h]; exact beq_iff_eq.mp hq)

theorem hget_hset_same (hs : HeaderMap) (n v n' : String)
    (h : lowerStr n' = lowerStr n) : hget (hset hs n v) n' = some v := by
  unfold hget hset
  rw [List.find?_append, find?_name_filter_ne hs n n' h]
  simp [List.find?, h.symm]

theorem hget_hset_other (hs : HeaderMap) (n v n' : String)
    (h : lowerStr n' ≠ lowerStr n) : hget (hset hs n v) n' = hget hs n' := by
  unfold hget hset
  rw [List.find?_append]
  have h2 : List.find? (fun kv => lowerStr kv.1 == lowerStr n') [(n, v)] = none := by
    rw [List.find?_eq_none]
    intro x hx hq
    rw [List.mem_singleton] at hx
    subst hx
    exact h (beq_iff_eq.mp hq).symm
  rw [h2, Option.or_none]
  congr 1
  refine find?_filter_of_imp _ _ hs ?_
  intro x hq
  rw [bne_iff_ne]
  intro hx
  exact h (by rw [← hx]; exact (beq_iff_eq.mp hq).symm)

theorem hget_hdelete_same (hs : HeaderMap) (n n' : String)
    (h : lowerStr n' = lowerStr n) : hget (hdelete hs n) n' = none := by
  unfold hget hdelete
  rw [find?_name_filter_ne hs n n' h]
  rfl

theorem hget_hdelete_other (hs : HeaderMap) (n n' : String)
    (h : lowerStr n' ≠ lowerStr n) : hget (hdelete hs n) n' = hget hs n' := by
  unfold hget hdelete
  congr 1
  refine find?_filter_of_imp _ _ hs ?_
  intro x hq
  rw [bne_iff_ne]
  intro hx
  exact h (by rw [← hx]; exact (beq_iff_eq.mp hq).symm)

theorem cacheMatch_cachePut_same (cache : Cache) (req : Request) (resp : Response) :
    cacheMatch (cachePut cache req resp) req = some resp := by
  unfold cacheMatch cachePut
  rw [List.find?_append]
  have h1 : List.find? (fun e => e.1 == req) (List.filter (fun e => e.1 != req) cache)
      = none := by
    rw [List.find?_eq_none]
    intro x hx hq
    have hp := (List.mem_filter.mp hx).2
    rw [bne_iff_ne] at hp
    exact hp (beq_iff_eq.mp hq)
  rw [h1]
  simp [List.find?]

namespace SW

theorem setSecurityHeaders_eq (hs : HeaderMap) :
    setSecurityHeaders hs =
      hset (hset (hset (hset (hset hs
        "Content-Security-Policy"
        "default-src 'self'; script-src 'self'; object-src 'none'; base-uri 'self'; frame-ancestors 'none';")
        "X-Content-Type-Options" "nosniff")
        "X-Frame-Options" "DENY")
        "Referrer-Policy" "no-referrer")
        "Strict-Transport-Security" "max-age=63072000; includeSubDomains; preload" := rfl

/-- Every entry of the Security Header Set is present (with its exact value)
after `setSecurityHeaders`. -/
theorem hget_setSecurityHeaders (hs : HeaderMap) (n v : String)
    (h : (n, v) ∈ SECURITY_HEADERS) : hget (setSecurityHeaders hs) n = some v := by
  rw [setSecurityHeaders_eq]
  simp only [SECURITY_HEADERS, List.mem_cons, List.not_mem_nil, or_false,
    Prod.mk.injEq] at h
  rcases h with ⟨rfl, rfl⟩ | ⟨rfl, rfl⟩ | ⟨rfl, rfl⟩ | ⟨rfl, rfl⟩ | ⟨rfl, rfl⟩
  · rw [hget_hset_other _ _ _ _ (by decide), hget_hset_other _ _ _ _ (by decide),
      hget_hset_other _ _ _ _ (by decide), hget_hset_other _ _ _ _ (by decide),
      hget_hset_same _ _ _ _ rfl]
  · rw [hget_hset_other _ _ _ _ (by decide), hget_hset_other _ _ _ _ (by decide),
      hget_hset_other _ _ _ _ (by decide), hget_hset_same _ _ _ _ rfl]
  · rw [hget_hset_other _ _ _ _ (by decide), hget_hset_other _ _ _ _ (by decide),
      hget_hset_same _ _ _ _ rfl]
  · rw [hget_hset_other _ _ _ _ (by decide), hget_hset_same _ _ _ _ rfl]
  · rw [hget_hset_same _ _ _ _ rfl]

/-- The security headers survive the `Server` deletion that follows them in
`addSecurityHeadersToResponse`. -/
theorem hget_addSecurityHeaders (r : Response) (n v : String)
    (h : (n, v) ∈ SECURITY_HEADERS) :
    hget (addSecurityHeadersToResponse r).headers n = some v := by
  unfold addSecurityHeadersToResponse
  simp only
  rw [hget_hdelete_other]
  · exact hget_setSecurityHeaders r.headers n v h
  · simp only [SECURITY_HEADERS, List.mem_cons, List.not_mem_nil, or_false,
      Prod.mk.injEq] at h
    rcases h with ⟨rfl, rfl⟩ | ⟨rfl, rfl⟩ | ⟨rfl, rfl⟩ | ⟨rfl, rfl⟩ | ⟨rfl, rfl⟩ <;> decide

end SW

theorem foldl_cachesDelete (ks : List String) :
    ∀ acc : List String,
      List.foldl cachesDelete acc ks = acc.filter (fun x => !(decide (x ∈ ks))) := by
  induction ks with
  | nil => intro acc; simp
  | cons k t ih =>
    intro acc
    rw [List.foldl_cons, ih (cachesDelete acc k)]
    unfold cachesDelete
    rw [List.filter_filter]
    apply List.filter_congr
    intro x _
    by_cases hxk : x = k <;> by_cases hxt : x ∈ t <;>
      simp [hxk, hxt, bne]

theorem sw_activate_eq_filter (store : List String) :
    SW.activateEvent store = store.filter (fun x => x == SW.CACHE_NAME) := by
  unfold SW.activateEvent
  rw [foldl_cachesDelete]
  apply List.filter_congr
  intro x hx
  by_cases hxn : x = SW.CACHE_NAME <;>
    simp [List.mem_filter, hxn, hx]

theorem planos_foldl_delete (ks : List String) :
    ∀ acc : List String,
      List.foldl (fun acc k => if k == Planos.CACHE_NAME then acc else cachesDelete acc k)
          acc ks
        = acc.filter (fun x => x == Planos.CACHE_NAME || !(decide (x ∈ ks))) := by
  induction ks with
  | nil => intro acc; simp
  | cons k t ih =>
    intro acc
    rw [List.foldl_cons]
    by_cases hk : k = Planos.CACHE_NAME
    · rw [if_pos (by simp [hk])]
      rw [ih acc]
      apply List.filter_congr
      intro x _
      by_cases hxk : x = k <;> by_cases hxt : x ∈ t <;>
        (simp [hxk, hxt, hk]; try tauto)
    · rw [if_neg (by simp [hk])]
      rw [ih (cachesDelete acc k)]
      unfold cachesDelete
      rw [List.filter_filter]
      apply List.filter_congr
      intro x _
      by_cases hxk : x = k <;> by_cases hxt : x ∈ t <;>
        simp [hxk, hxt, hk, bne]

theorem planos_activate_eq_filter (store : List String) :
    Planos.activateEvent store = store.filter (fun x => x == Planos.CACHE_NAME) := by
  unfold Planos.activateEvent
  rw [planos_foldl_delete]
  apply List.filter_congr
  intro x hx
  simp [hx]

theorem filter_beq_singleton (l : List String) (a : String)
    (h1 : l.Nodup) (h2 : a ∈ l) : l.filter (fun x => x == a) = [a] := by
  induction l with
  | nil => cases h2
  | cons b t ih =>
    rw [List.filter_cons]
    rcases List.mem_cons.mp h2 with rfl | hmem
    · rw [if_pos (by simp)]
      have hnotin : a ∉ t := (List.nodup_cons.mp h1).1
      have ht : t.filter (fun x => x == a) = [] := by
        rw [List.filter_eq_nil_iff]
        intro x hx hbeq
        exact hnotin (by rw [← eq_of_beq hbeq]; exact hx)
      rw [ht]
    · have hba : (b == a) = false := by
        refine beq_eq_false_iff_ne.mpr ?_
        rintro rfl
        exact (List.nodup_cons.mp h1).1 hmem
      rw [if_neg (by simp [hba])]
      exact ih (List.nodup_cons.mp h1).2 hmem

/-- C7: after activation, every cache generation other than the current one
has been deleted, so the set of generations is exactly the singleton of the
current generation id — in both variants (the hypotheses say the current
generation already exists, which install guarantees, and that cache keys are
unique, which the `caches` store guarantees). -/
theorem activation_deletes_stale_generations (s1 s2 : List String)
    (h1 : s1.Nodup) (h2 : SW.CACHE_NAME ∈ s1)
    (h3 : s2.Nodup) (h4 : Planos.CACHE_NAME ∈ s2) :
    SW.activateEvent s1 = [SW.CACHE_NAME] ∧
    Planos.activateEvent s2 = [Planos.CACHE_NAME] :=
  ⟨by rw [sw_activate_eq_filter]; exact filter_beq_singleton _ _ h1 h2,
   by rw [planos_activate_eq_filter]; exact filter_beq_singleton _ _ h3 h4⟩

/-- Witness for C7 at concrete generation stores. -/
theorem activation_deletes_stale_generations_witness :
    SW.activateEvent ["arminos-static-v0", "arminos-static-v1"] = ["arminos-static-v1"] ∧
    Planos.activateEvent ["planos-pwa-v1", "old-cache"] = ["planos-pwa-v1"] := by
  have h := activation_deletes_stale_generations
    ["arminos-static-v0", "arminos-static-v1"] ["planos-pwa-v1", "old-cache"]
    (by decide) (by decide) (by decide) (by decide)
  simpa [SW.CACHE_NAME, Planos.CACHE_NAME] using h

/-- The synthesized 502 error response also carries every security header
(its header object is built from `Content-Type` plus `SECURITY_HEADERS`). -/
theorem hget_networkErrorResponse (n v : String) (h : (n, v) ∈ SW.SECURITY_HEADERS) :
    hget SW.networkErrorResponse.headers n = some v := by
  simp only [SW.SECURITY_HEADERS, List.mem_cons, List.not_mem_nil, or_false,
    Prod.mk.injEq] at h
  rcases h with ⟨rfl, rfl⟩ | ⟨rfl, rfl⟩ | ⟨rfl, rfl⟩ | ⟨rfl, rfl⟩ | ⟨rfl, rfl⟩ <;> decide

/-- C6: `addSecurityHeadersToResponse` yields a response with the same
status, status text and byte-for-byte identical body, in which every entry of
the Security Header Set is set (overwriting any existing value), the
`Server` header is removed, and every other header is unchanged. -/
theorem addSecurityHeaders_spec (r : Response) :
    (SW.addSecurityHeadersToResponse r).status = r.status ∧
    (SW.addSecurityHeadersToResponse r).statusText = r.statusText ∧
    (SW.addSecurityHeadersToResponse r).body = r.body ∧
    (∀ n v, (n, v) ∈ SW.SECURITY_HEADERS →
      hget (SW.addSecurityHeadersToResponse r).headers n = some v) ∧
    hget (SW.addSecurityHeadersToResponse r).headers "Server" = none ∧
    (∀ n, lowerStr n ≠ lowerStr "Content-Security-Policy" →
      lowerStr n ≠ lowerStr "X-Content-Type-Options" →
      lowerStr n ≠ lowerStr "X-Frame-Options" →
      lowerStr n ≠ lowerStr "Referrer-Policy" →
      lowerStr n ≠ lowerStr "Strict-Transport-Security" →
      lowerStr n ≠ lowerStr "Server" →
      hget (SW.addSecurityHeadersToResponse r).headers n = hget r.headers n) := by
  refine ⟨rfl, rfl, rfl, fun n v hm => SW.hget_addSecurityHeaders r n v hm, ?_, ?_⟩
  · exact hget_hdelete_same _ _ _ rfl
  · intro n h1 h2 h3 h4 h5 h6
    unfold SW.addSecurityHeadersToResponse
    simp only
    rw [hget_hdelete_other _ _ _ h6, SW.setSecurityHeaders_eq,
      hget_hset_other _ _ _ _ h5, hget_hset_other _ _ _ _ h4,
      hget_hset_other _ _ _ _ h3, hget_hset_other _ _ _ _ h2,
      hget_hset_other _ _ _ _ h1]

/-- Witness for C6 at a concrete response carrying a `Server` header and an
unrelated custom header. -/
theorem addSecurityHeaders_spec_witness :
    (SW.addSecurityHeadersToResponse
        { status := 200, statusText := "OK",
          headers := [("Server", "nginx"), ("X-Custom", "a")], body := [104, 105] }).body
        = [104, 105] ∧
    hget (SW.addSecurityHeadersToResponse
        { status := 200, statusText := "OK",
          headers := [("Server", "nginx"), ("X-Custom", "a")], body := [104, 105] }).headers
        "X-Frame-Options" = some "DENY" ∧
    hget (SW.addSecurityHeadersToResponse
        { status := 200, statusText := "OK",
          headers := [("Server", "nginx"), ("X-Custom", "a")], body := [104, 105] }).headers
        "Server" = none ∧
    hget (SW.addSecurityHeadersToResponse
        { status := 200, statusText := "OK",
          headers := [("Server", "nginx"), ("X-Custom", "a")], body := [104, 105] }).headers
        "X-Custom" = hget [("Server", "nginx"), ("X-Custom", "a")] "X-Custom" := by
  have h := addSecurityHeaders_spec
    { status := 200, statusText := "OK",
      headers := [("Server", "nginx"), ("X-Custom", "a")], body := [104, 105] }
  exact ⟨h.2.2.1, h.2.2.2.1 "X-Frame-Options" "DENY" (by decide), h.2.2.2.2.1,
    h.2.2.2.2.2 "X-Custom" (by decide) (by decide) (by decide) (by decide)
      (by decide) (by decide)⟩

/-- C4: the string sanitizer maps `<script>alert(1)</script>hello` to
`hello`, `onclick="bad()"x` to `x`, and `javascript:evil()` to `evil()`
(stated on a JSON object field, exercising `sanitizeJsonStrings`). -/
theorem sanitizer_examples :
    SW.sanitizeJsonStrings (Json.obj [("field", Json.str "<script>alert(1)</script>hello")])
        = Json.obj [("field", Json.str "hello")] ∧
    SW.sanitizeJsonStrings (Json.obj [("field", Json.str "onclick=\"bad()\"x")])
        = Json.obj [("field", Json.str "x")] ∧
    SW.sanitizeJsonStrings (Json.obj [("field", Json.str "javascript:evil()")])
        = Json.obj [("field", Json.str "evil()")] := by
  refine ⟨?_, ?_, ?_⟩
  · have hs : SW.sanitizeString "<script>alert(1)</script>hello" = "hello" := by decide
    simp [SW.sanitizeJsonStrings, SW.sanitizeJsonFields, hs]
  · have hs : SW.sanitizeString "onclick=\"bad()\"x" = "x" := by decide
    simp [SW.sanitizeJsonStrings, SW.sanitizeJsonFields, hs]
  · have hs : SW.sanitizeString "javascript:evil()" = "evil()" := by decide
    simp [SW.sanitizeJsonStrings, SW.sanitizeJsonFields, hs]

/-- C10: in the default network-first handler, a non-2xx network response
(4xx included) is never written to the cache; the cached entry, if one
exists, is returned with hardened headers; with no cached entry the non-2xx
network response is returned exactly as it came, no headers added. -/
theorem networkFirst_non2xx (cache : Cache) (req : Request) (resp : Response)
    (h : respOk resp = false) :
    (SW.networkFirstWithSecurity cache (.ok (some resp)) req).1 = cache ∧
    (cacheMatch cache req = none →
      (SW.networkFirstWithSecurity cache (.ok (some resp)) req).2 = .ok (some resp)) ∧
    (∀ cached, cacheMatch cache req = some cached →
      (SW.networkFirstWithSecurity cache (.ok (some resp)) req).2
        = .ok (some (SW.addSecurityHeadersToResponse cached))) := by
  refine ⟨?_, ?_, ?_⟩
  · cases hc : cacheMatch cache req <;> simp [SW.networkFirstWithSecurity, h, hc]
  · intro hc
    simp [SW.networkFirstWithSecurity, h, hc]
  · intro cached hc
    simp [SW.networkFirstWithSecurity, h, hc]

/-- Witness for C10 at a concrete 404 and an empty cache. -/
theorem networkFirst_non2xx_witness :
    (SW.networkFirstWithSecurity [] (.ok (some notFoundResp)) (demoReq "/x")).1 = [] ∧
    (SW.networkFirstWithSecurity [] (.ok (some notFoundResp)) (demoReq "/x")).2
      = .ok (some notFoundResp) := by
  have h := networkFirst_non2xx [] (demoReq "/x") notFoundResp (by decide)
  exact ⟨h.1, h.2.1 rfl⟩

/-- C1 (amended): when the network fetch succeeds with a non-error (2xx)
status, the default network-first handler returns the hardened response —
carrying every Security Header Set entry — and the cache afterwards contains
an entry for the request; the sensitive-API handler also returns a response
carrying every Security Header Set entry, but performs no cache write at
all. -/
theorem networkFirst_success_headers_and_cache :
    (∀ (cache : Cache) (req : Request) (resp : Response), respOk resp = true →
      (SW.networkFirstWithSecurity cache (.ok (some resp)) req).2
          = .ok (some (SW.addSecurityHeadersToResponse resp)) ∧
      (∀ n v, (n, v) ∈ SW.SECURITY_HEADERS →
        hget (SW.addSecurityHeadersToResponse resp).headers n = some v) ∧
      cacheMatch (SW.networkFirstWithSecurity cache (.ok (some resp)) req).1 req
          = some resp) ∧
    (∀ (parse : List Nat → Option Json) (resp out : Response),
      SW.handleApiCalendar parse (.ok (some resp)) = some out →
      ∀ n v, (n, v) ∈ SW.SECURITY_HEADERS → hget out.headers n = some v) ∧
    (∀ (cache : Cache) (parse : List Nat → Option Json)
        (fr : Except Unit (Option Response)),
      (SW.apiCalendarEvent cache parse fr).1 = cache) := by
  refine ⟨?_, ?_, fun cache parse fr => rfl⟩
  · intro cache req resp h
    refine ⟨?_, fun n v hm => SW.hget_addSecurityHeaders resp n v hm, ?_⟩
    · simp [SW.networkFirstWithSecurity, h]
    · have h1 : (SW.networkFirstWithSecurity cache (.ok (some resp)) req).1
          = cachePut cache req resp := by
        simp [SW.networkFirstWithSecurity, h]
      rw [h1]
      exact cacheMatch_cachePut_same cache req resp
  · intro parse resp out hout n v hm
    by_cases hct : strIncludes ((hget resp.headers "Content-Type").getD "")
        "application/json" = true
    · cases hp : parse resp.body with
      | some j =>
        simp [SW.handleApiCalendar, hct, hp] at hout
        rw [← hout]
        exact SW.hget_setSecurityHeaders resp.headers n v hm
      | none =>
        simp [SW.handleApiCalendar, hct, hp] at hout
        rw [← hout]
        exact hget_networkErrorResponse n v hm
    · simp [SW.handleApiCalendar, hct] at hout
      rw [← hout]
      exact SW.hget_addSecurityHeaders resp n v hm

/-- Witness for C1 at a concrete 200 response and empty cache: the handled
request is afterwards present in the cache and the returned headers carry a
Security Header Set entry. -/
theorem networkFirst_success_headers_and_cache_witness :
    cacheMatch (SW.networkFirstWithSecurity [] (.ok (some jsonResp)) (demoReq "/d")).1
        (demoReq "/d") = some jsonResp ∧
    hget (SW.addSecurityHeadersToResponse jsonResp).headers "X-Content-Type-Options"
        = some "nosniff" := by
  have h := networkFirst_success_headers_and_cache.1 [] (demoReq "/d") jsonResp (by decide)
  exact ⟨h.2.2, h.2.1 "X-Content-Type-Options" "nosniff" (by decide)⟩

/-- C1 counterexample: a same-origin GET for the sensitive prefix whose fetch
succeeds with a 200 JSON response — the claim asserts the cache then contains
an entry for the request, but the calendar handler writes nothing: the cache
stays empty. -/
theorem apiCalendar_does_not_cache_cex :
    respOk jsonResp = true ∧
    SW.route demoOrigin calendarReq = SW.RouteDecision.apiCalendar ∧
    cacheMatch (SW.apiCalendarEvent [] parseSome (.ok (some jsonResp))).1 calendarReq
      = none := by
  exact ⟨by decide, by decide, rfl⟩

/-- C2 (amended): when the network fetch fails and a cache entry exists, the
default network-first handler returns the cached body byte-for-byte with the
Security Header Set applied; the sensitive-API handler instead ignores the
cache and answers with the synthesized 502 error response. -/
theorem networkFirst_failure_cached :
    (∀ (cache : Cache) (req : Request) (cached : Response),
      cacheMatch cache req = some cached →
      (SW.networkFirstWithSecurity cache (.error ()) req).2
          = .ok (some (SW.addSecurityHeadersToResponse cached)) ∧
      (SW.addSecurityHeadersToResponse cached).body = cached.body ∧
      (∀ n v, (n, v) ∈ SW.SECURITY_HEADERS →
        hget (SW.addSecurityHeadersToResponse cached).headers n = some v)) ∧
    (∀ parse : List Nat → Option Json,
      SW.handleApiCalendar parse (.error ()) = some SW.networkErrorResponse) := by
  refine ⟨?_, fun parse => rfl⟩
  intro cache req cached h
  exact ⟨by simp [SW.networkFirstWithSecurity, h], rfl,
    fun n v hm => SW.hget_addSecurityHeaders cached n v hm⟩

/-- Witness for C2 at a concrete cached entry and a failing fetch. -/
theorem networkFirst_failure_cached_witness :
    (SW.networkFirstWithSecurity [(demoReq "/a", cachedHello)] (.error ())
        (demoReq "/a")).2
      = .ok (some (SW.addSecurityHeadersToResponse cachedHello)) ∧
    (SW.addSecurityHeadersToResponse cachedHello).body = cachedHello.body := by
  have h := networkFirst_failure_cached.1 [(demoReq "/a", cachedHello)] (demoReq "/a")
    cachedHello (by decide)
  exact ⟨h.1, h.2.1⟩

/-- C2 counterexample: a cached calendar entry with body `hello` exists and
the fetch fails, yet the calendar handler returns the synthesized 502 body,
not the previously cached body. -/
theorem apiCalendar_failure_ignores_cache_cex :
    cacheMatch [(calendarReq, cachedHello)] calendarReq = some cachedHello ∧
    (SW.apiCalendarEvent [(calendarReq, cachedHello)] parseNone (.error ())).2
      = some SW.networkErrorResponse ∧
    SW.networkErrorResponse.body ≠ cachedHello.body := by
  exact ⟨by decide, rfl, by decide⟩

/-- C5 (amended): for a sensitive-API response declaring a JSON content type
whose body fails to parse, the thrown parse error lands in the handler's
single `catch`: the caller receives the synthesized 502 error response
(security headers, fresh JSON error body) — the original body and status are
not preserved. -/
theorem apiCalendar_parse_failure (parse : List Nat → Option Json) (resp : Response)
    (hct : strIncludes ((hget resp.headers "Content-Type").getD "")
      "application/json" = true)
    (hp : parse resp.body = none) :
    SW.handleApiCalendar parse (.ok (some resp)) = some SW.networkErrorResponse ∧
    SW.networkErrorResponse.status = 502 ∧
    (∀ n v, (n, v) ∈ SW.SECURITY_HEADERS →
      hget SW.networkErrorResponse.headers n = some v) := by
  refine ⟨?_, rfl, fun n v hm => hget_networkErrorResponse n v hm⟩
  simp [SW.handleApiCalendar, hct, hp]

/-- Witness for C5 at a concrete JSON response with a failing parse. -/
theorem apiCalendar_parse_failure_witness :
    SW.handleApiCalendar parseNone (.ok (some jsonResp))
      = some SW.networkErrorResponse := by
  exact (apiCalendar_parse_failure parseNone jsonResp (by decide) rfl).1

/-- C5 counterexample: the claim says the body is returned untouched on a
parse failure; at a concrete unparseable JSON response the returned body and
status both differ from the original. -/
theorem apiCalendar_parse_failure_cex :
    (SW.handleApiCalendar parseNone (.ok (some jsonResp))).map Response.body
      ≠ some jsonResp.body ∧
    (SW.handleApiCalendar parseNone (.ok (some jsonResp))).map Response.status
      ≠ some jsonResp.status := by
  exact ⟨by decide, by decide⟩

/-- C3: the security variant's fetch listener routes by evaluating, in
order with first match winning: (1) non-GET or cross-origin → pass through
(no `respondWith`, cache untouched); (2) navigation or HTML-accepting →
navigation handling; (3) sensitive-API prefix `/api/calendar` →
sensitive-API handling; (4) otherwise → the default network-first handler. -/
theorem fetch_routing (o : String) (req : Request) :
    (SW.route o req = SW.RouteDecision.passThrough ↔
      ¬(req.method = "GET" ∧ SW.isSameOrigin o req = true)) ∧
    (SW.route o req = SW.RouteDecision.navigation ↔
      (req.method = "GET" ∧ SW.isSameOrigin o req = true ∧
        SW.isNavigationReq req = true)) ∧
    (SW.route o req = SW.RouteDecision.apiCalendar ↔
      (req.method = "GET" ∧ SW.isSameOrigin o req = true ∧
        SW.isNavigationReq req = false ∧ SW.pathStartsCalendar req = true)) ∧
    (SW.route o req = SW.RouteDecision.defaultHandler ↔
      (req.method = "GET" ∧ SW.isSameOrigin o req = true ∧
        SW.isNavigationReq req = false ∧ SW.pathStartsCalendar req = false)) ∧
    (∀ (cache : Cache) (w : SW.FetchWorld),
      SW.route o req = SW.RouteDecision.passThrough →
      SW.fetchEventDispatch o cache w req = (cache, none)) := by
  cases hu : req.url with
  | malformed =>
    have ho : SW.isSameOrigin o req = false := by simp [SW.isSameOrigin, hu]
    simp [SW.route, SW.fetchEventDispatch, ho, SW.pathStartsCalendar, hu]
  | parsed org p =>
    by_cases hm : req.method = "GET"
    · by_cases ho : org = o
      · have hso : SW.isSameOrigin o req = true := by simp [SW.isSameOrigin, hu, ho]
        cases hn : SW.isNavigationReq req
        · cases hcal : strStarts p "/api/calendar" <;>
            simp [SW.route, SW.fetchEventDispatch, hm, hso, hn, hu, hcal,
              SW.pathStartsCalendar]
        · simp [SW.route, SW.fetchEventDispatch, hm, hso, hn, SW.pathStartsCalendar, hu]
      · have hso : SW.isSameOrigin o req = false := by
          simp [SW.isSameOrigin, hu, ho]
        simp [SW.route, SW.fetchEventDispatch, hm, hso, SW.pathStartsCalendar, hu]
    · simp [SW.route, SW.fetchEventDispatch, hm, SW.pathStartsCalendar, hu]

/-- Witness for C3: a POST request passes through — no `respondWith`, the
cache is untouched. -/
theorem fetch_routing_witness :
    SW.fetchEventDispatch demoOrigin [] { fetchResult := .error (), parse := parseNone }
      { method := "POST", url := .parsed demoOrigin "/x", mode := "cors", headers := [] }
      = ([], none) := by
  exact (fetch_routing demoOrigin
    { method := "POST", url := .parsed demoOrigin "/x", mode := "cors",
      headers := [] }).2.2.2.2
    [] { fetchResult := .error (), parse := parseNone } (by decide)

/-- C8: a control message from a foreign origin, with a missing or
unparseable source URL, whose data is not an object, or whose `type` field
is not one of the recognized message types, produces no broadcast and no
reply (the listener's body is inside `try/catch`, so no error surfaces
either). -/
theorem message_drops_foreign_or_malformed (o : String) (ev : SW.MessageEvent)
    (h : ev.source = none ∨
      (∃ s, ev.source = some s ∧ (s.url = none ∨ s.url = some URLVal.malformed)) ∨
      (∃ s org p, ev.source = some s ∧ s.url = some (URLVal.parsed org p) ∧ org ≠ o) ∨
      ev.data = SW.MsgData.notObject ∨
      (∃ ty pid, ev.data = SW.MsgData.object ty pid ∧
        ty ≠ some "CONFIRM_DELETE" ∧ ty ≠ some "SW_HEALTH_CHECK")) :
    SW.handleMessage o ev = { broadcast := none, reply := none } := by
  rcases h with h | ⟨s, hs, hurl⟩ | ⟨s, org, p, hs, hurl, hne⟩ | h |
    ⟨ty, pid, hd, h1, h2⟩
  · simp [SW.handleMessage, h]
  · rcases hurl with hurl | hurl <;> simp [SW.handleMessage, hs, hurl]
  · simp [SW.handleMessage, hs, hurl, bne_iff_ne.mpr hne]
  · rcases hsrc : ev.source with _ | s
    · simp [SW.handleMessage, hsrc]
    · rcases hurl : s.url with _ | u
      · simp [SW.handleMessage, hsrc, hurl]
      · cases u with
        | malformed => simp [SW.handleMessage, hsrc, hurl]
        | parsed org p =>
          by_cases ho : org = o <;>
            simp [SW.handleMessage, hsrc, hurl, ho, h]
  · have hb1 : (ty == some "CONFIRM_DELETE") = false := beq_eq_false_iff_ne.mpr h1
    have hb2 : (ty == some "SW_HEALTH_CHECK") = false := beq_eq_false_iff_ne.mpr h2
    rcases hsrc : ev.source with _ | s
    · simp [SW.handleMessage, hsrc]
    · rcases hurl : s.url with _ | u
      · simp [SW.handleMessage, hsrc, hurl]
      · cases u with
        | malformed => simp [SW.handleMessage, hsrc, hurl]
        | parsed org p =>
          by_cases ho : org = o <;>
            simp [SW.handleMessage, hsrc, hurl, ho, hd, hb1, hb2, h1, h2]

/-- Witness for C8: a health-check message from a foreign origin gets no
broadcast and no reply. -/
theorem message_drops_foreign_or_malformed_witness :
    SW.handleMessage demoOrigin
      { source := some { url := some (URLVal.parsed "https://evil.example" "/") },
        data := SW.MsgData.object (some "SW_HEALTH_CHECK") none }
      = { broadcast := none, reply := none } :=
  message_drops_foreign_or_malformed demoOrigin _
    (Or.inr (Or.inr (Or.inl ⟨_, "https://evil.example", "/", rfl, rfl, by decide⟩)))

/-- C9 (amended): in the cache-first variant's non-navigation path, a fetch
rejection with no cached entry is answered by `.catch(() => cached)` where
`cached` is necessarily absent: the handler's promise resolves with
`undefined` — the network error is swallowed, not propagated. -/
theorem planos_failure_resolves_undefined (o : String) (cache : Cache) (req : Request)
    (h : cacheMatch cache req = none) :
    Planos.handleNonNavigation o cache req (.error ()) = (cache, .ok none) := by
  simp [Planos.handleNonNavigation, h]

/-- Witness for C9 at a concrete request and empty cache. -/
theorem planos_failure_resolves_undefined_witness :
    Planos.handleNonNavigation demoOrigin [] (demoReq "/x") (.error ())
      = ([], .ok none) :=
  planos_failure_resolves_undefined demoOrigin [] (demoReq "/x") rfl

/-- C9 counterexample: at a concrete request with an empty cache and a
failing fetch, the handler's result is a resolved `undefined` value, not the
propagated network error the claim asserts. -/
theorem planos_failure_not_propagated_cex :
    (Planos.handleNonNavigation demoOrigin [] (demoReq "/x") (.error ())).2
      = .ok none ∧
    (Planos.handleNonNavigation demoOrigin [] (demoReq "/x") (.error ())).2
      ≠ .error () := by
  refine ⟨rfl, ?_⟩
  intro he
  rw [show (Planos.handleNonNavigation demoOrigin [] (demoReq "/x") (.error ())).2
      = Except.ok none from rfl] at he
  exact Except.noConfusion he
